import Mathlib

/-!
Verification of the `objloader` package
(`learn-wgpu/beginner/tutorial9-models/objloader/objloader.go`): a streaming
OBJ/MTL text parser producing named mesh models (deduplicated
vertex/index buffers) and named materials.

Shallow embedding conventions:
* The input streams are given as the list of lines the scanner yields
  (`bufio.Scanner` splits on newlines); file opening and path resolution
  are abstracted into a resolver function `String → Option (List String)`.
* The extra boolean passed to `LoadObj` records whether the underlying
  scan of the stream stopped because of a read failure rather than
  end-of-file.  The Go code never inspects `s.Err()`, so the definition
  does not consult it; keeping the flag makes that observable.
* Numeric (float32) values are modelled as exact decimal numbers
  `num / 10 ^ exp` in canonical form (`F32`).  The parser only ever
  parses, stores and compares these values — it performs no arithmetic
  on them — so canonical-decimal equality coincides with Go's value
  equality on the decimal tokens involved.  float32 rounding and the
  `Inf`/`NaN`/hex/underscore-separator spellings accepted by
  `strconv.ParseFloat` are outside the model.
* `int64`/`uint32`/`uint8` are modelled as `ℤ`/`ℕ` with explicit
  wrapping (`i64wrap`, `u32`) where the Go code converts or could
  overflow.
* A Go runtime panic (out-of-range slice index in `exportModel`) is
  modelled as `Option.none` at the outermost level; an error returned
  through the `error` result is `Except.error`.  The two are distinct.
-/

/-- `strings.Split(l, sep)` for a one-character separator: split on every
occurrence, keeping empty pieces; the split of the empty string is `[[]]`. -/
def splitOnChar (sep : Char) : List Char → List (List Char)
  | [] => [[]]
  | c :: cs =>
    if c = sep then [] :: splitOnChar sep cs
    else
      match splitOnChar sep cs with
      | [] => [[c]]
      | t :: ts => (c :: t) :: ts

/-- The whitespace predicate of `strings.TrimSpace`, restricted to the ASCII
space characters (the inputs in scope are ASCII). -/
def goIsSpace (c : Char) : Bool :=
  c = ' ' || c = '\t' || c = '\n' || c = '\r' || c = '\x0b' || c = '\x0c'

/-- `strings.TrimSpace`: drop leading and trailing whitespace. -/
def goTrim (cs : List Char) : List Char :=
  ((cs.dropWhile goIsSpace).reverse.dropWhile goIsSpace).reverse

/-- `strings.SplitN(s, "/", 3)`: at most three pieces, the last piece keeps
the unsplit remainder. -/
def splitN3Slash (cs : List Char) : List (List Char) :=
  let ps := splitOnChar '/' cs
  if ps.length ≤ 3 then ps else ps.take 2 ++ [List.intercalate ['/'] (ps.drop 2)]

/-- Numeric value of a string of decimal digits (most significant first). -/
def natOfDigits (cs : List Char) : ℕ :=
  cs.foldl (fun a c => a * 10 + (c.toNat - 48)) 0

/-- Whether every character is a decimal digit. -/
def allDigits (cs : List Char) : Bool :=
  cs.all Char.isDigit

/-- Exact decimal value `num / 10 ^ exp`, canonical: `num` is not divisible
by `10` unless `exp = 0`, and zero is `⟨0, 0⟩`.  Stands in for `float32`
values, on which the parser performs no arithmetic. -/
structure F32 where
  num : ℤ
  exp : ℕ
  deriving DecidableEq, Repr

/-- Canonicalize `n / 10 ^ e` by stripping factors of ten. -/
def normF32 : ℤ → ℕ → F32
  | n, 0 => ⟨n, 0⟩
  | n, e + 1 => if n % 10 = 0 then normF32 (n / 10) e else ⟨n, e + 1⟩

/-- The decimal value `n / 10 ^ e`, in canonical form. -/
def dec (n : ℤ) (e : ℕ) : F32 := normF32 n e

/-- Zero, the Go zero value of a `float32` field. -/
def F32.zero : F32 := ⟨0, 0⟩

/-- Assemble a parsed decimal: sign, mantissa digits value, number of
fraction digits, decimal exponent. -/
def mkF32 (sign : Bool) (mant : ℕ) (fracLen : ℕ) (ex : ℤ) : F32 :=
  let e' : ℤ := ex - fracLen
  let n : ℤ := if sign then -(mant : ℤ) else (mant : ℤ)
  if 0 ≤ e' then normF32 (n * 10 ^ e'.toNat) 0 else normF32 n (-e').toNat

/-- Parse an optional exponent part `e`/`E` followed by optionally signed
digits; the empty remainder means exponent `0`. -/
def parseExpPart : List Char → Option ℤ
  | [] => some 0
  | e :: rest =>
    if e = 'e' ∨ e = 'E' then
      match rest with
      | '+' :: ds => if ds.isEmpty then none else
          if allDigits ds then some ((natOfDigits ds : ℕ) : ℤ) else none
      | '-' :: ds => if ds.isEmpty then none else
          if allDigits ds then some (-((natOfDigits ds : ℕ) : ℤ)) else none
      | ds => if ds.isEmpty then none else
          if allDigits ds then some ((natOfDigits ds : ℕ) : ℤ) else none
    else none

/-- Parse the mantissa `digits [. digits]` (at least one digit overall);
returns the mantissa value, the fraction length and the remainder. -/
def parseMantissa (cs : List Char) : Option (ℕ × ℕ × List Char) :=
  let ip := cs.takeWhile Char.isDigit
  let rest1 := cs.dropWhile Char.isDigit
  match rest1 with
  | '.' :: rest2 =>
    let fp := rest2.takeWhile Char.isDigit
    let rest3 := rest2.dropWhile Char.isDigit
    if ip.isEmpty && fp.isEmpty then none
    else some (natOfDigits (ip ++ fp), fp.length, rest3)
  | _ => if ip.isEmpty then none else some (natOfDigits ip, 0, rest1)

/-- `strconv.ParseFloat` on the decimal syntax
`[+-] digits [. digits] [(e|E) [+-] digits]`, evaluated exactly. -/
def parseFloatCs (cs : List Char) : Option F32 :=
  let p : Bool × List Char :=
    match cs with
    | '+' :: r => (false, r)
    | '-' :: r => (true, r)
    | r => (false, r)
  match parseMantissa p.2 with
  | none => none
  | some (m, fl, rest) =>
    match parseExpPart rest with
    | none => none
    | some ex => some (mkF32 p.1 m fl ex)

/-- `parseFloat` helper of the source (`strconv.ParseFloat` then a
`float32` conversion; the conversion is the identity in this model). -/
def parseFloat (s : List Char) : Option F32 := parseFloatCs s

/-- `parse3Float` helper of the source: three floats, first failure wins. -/
def parse3Float (xs ys zs : List Char) : Option (F32 × F32 × F32) :=
  match parseFloat xs with
  | none => none
  | some x =>
    match parseFloat ys with
    | none => none
    | some y =>
      match parseFloat zs with
      | none => none
      | some z => some (x, y, z)

/-- `strconv.ParseInt(s, 10, 64)`: optional sign, decimal digits, value
must fit in `int64`. -/
def parseInt64 (cs : List Char) : Option ℤ :=
  match cs with
  | '+' :: ds =>
    if ds.isEmpty then none else
    if allDigits ds then
      if (natOfDigits ds : ℤ) ≤ 2 ^ 63 - 1 then some ((natOfDigits ds : ℕ) : ℤ) else none
    else none
  | '-' :: ds =>
    if ds.isEmpty then none else
    if allDigits ds then
      if (natOfDigits ds : ℤ) ≤ 2 ^ 63 then some (-((natOfDigits ds : ℕ) : ℤ)) else none
    else none
  | ds =>
    if ds.isEmpty then none else
    if allDigits ds then
      if (natOfDigits ds : ℤ) ≤ 2 ^ 63 - 1 then some ((natOfDigits ds : ℕ) : ℤ) else none
    else none

/-- `strconv.ParseUint(s, 10, 8)`: decimal digits, no sign, value below 256. -/
def parseUint8 (cs : List Char) : Option ℕ :=
  if cs.isEmpty then none else
  if allDigits cs then
    if natOfDigits cs < 256 then some (natOfDigits cs) else none
  else none

/-- A `[3]float32` of the source. -/
abbrev Vec3 := F32 × F32 × F32

/-- The zero `[3]float32`. -/
def vec3zero : Vec3 := (F32.zero, F32.zero, F32.zero)

/-- One face corner `[3]int64`: (position, texcoord, normal) 1-based indices. -/
abbrev Triple := ℤ × ℤ × ℤ

/-- One triangular face `[3][3]int64`: three corners. -/
abbrev Face := Triple × Triple × Triple

/-- The `Model` struct of the source.  `Indices` holds `uint32` values,
modelled as naturals below `2 ^ 32`. -/
structure Model where
  Name : String
  MaterialName : String
  Vertices : List Vec3
  TextureCoords : List Vec3
  Normals : List Vec3
  Indices : List ℕ
  deriving DecidableEq, Repr

/-- The `Material` struct of the source. -/
structure Material where
  Name : String
  Ambient : Vec3
  Diffuse : Vec3
  Specular : Vec3
  Shininess : F32
  Dissolve : F32
  OpticalDensity : F32
  AmbientTexture : String
  DiffuseTexture : String
  SpecularTexture : String
  NormalTexture : String
  ShininessTexture : String
  DissolveTexture : String
  IlluminationModel : ℕ
  deriving DecidableEq, Repr

/-- `Material{Name: name}` in Go: the given name, all other fields zero. -/
def mkMaterial (name : String) : Material :=
  ⟨name, vec3zero, vec3zero, vec3zero, F32.zero, F32.zero, F32.zero,
   "", "", "", "", "", "", 0⟩

/-- Go `int64` wraparound of an integer. -/
def i64wrap (x : ℤ) : ℤ := (x + 2 ^ 63) % 2 ^ 64 - 2 ^ 63

/-- Go `uint32(n)` conversion of a nonnegative value. -/
def u32 (n : ℕ) : ℕ := n % 2 ^ 32

/-- Go slice indexing `l[i]`; an index outside `[0, len l)` panics, which
is modelled as `none`. -/
def sliceGet {α : Type} (l : List α) (i : ℤ) : Option α :=
  if i < 0 then none else l.get? i.toNat

/-- Lookup in the deduplication map `indexMap`, modelled as an association
list (the Go map is used for lookup and insert only, never iterated, and
keys are inserted at most once). -/
def lookupMap : List (Triple × ℕ) → Triple → Option ℕ
  | [], _ => none
  | p :: ps, k => if p.1 = k then some p.2 else lookupMap ps k

/-- The intermediate state of `exportModel`'s loop: the deduplication map
and the output sequences built so far. -/
structure ExpState where
  indexMap : List (Triple × ℕ)
  Vertices : List Vec3
  TextureCoords : List Vec3
  Normals : List Vec3
  Indices : List ℕ
  deriving Repr

/-- The empty `exportModel` state. -/
def ExpState.init : ExpState := ⟨[], [], [], [], []⟩

/-- One iteration of `exportModel`'s inner loop, processing the corner
`idx`: reuse the mapped output index when the exact triple was seen
before, otherwise resolve the three 1-based pool lookups (panicking —
`none` — when out of range), append a new output vertex and record the
next sequential index. -/
def exportStep (verts normals texCoords : List Vec3) (st : ExpState)
    (idx : Triple) : Option ExpState :=
  match lookupMap st.indexMap idx with
  | some i => some { st with Indices := st.Indices ++ [i] }
  | none =>
    match sliceGet verts (i64wrap (idx.1 - 1)) with
    | none => none
    | some v =>
      match sliceGet normals (i64wrap (idx.2.2 - 1)) with
      | none => none
      | some n =>
        match sliceGet texCoords (i64wrap (idx.2.1 - 1)) with
        | none => none
        | some t =>
          some { indexMap := st.indexMap ++ [(idx, u32 st.indexMap.length)],
                 Vertices := st.Vertices ++ [v],
                 TextureCoords := st.TextureCoords ++ [t],
                 Normals := st.Normals ++ [n],
                 Indices := st.Indices ++ [u32 st.indexMap.length] }

/-- The corners of a face list in encounter order (the source's nested
`for` loops over faces and corners). -/
def cornersOf (faces : List Face) : List Triple :=
  faces.flatMap (fun f => [f.1, f.2.1, f.2.2])

/-- `exportModel` of the source: walk all face corners in encounter order,
deduplicating by exact index triple.  `none` is the Go panic on an
out-of-range pool lookup.  The Go zero value of `MaterialName` is `""`. -/
def exportModel (name : String) (verts normals texCoords : List Vec3)
    (faces : List Face) : Option Model :=
  match (cornersOf faces).foldlM (exportStep verts normals texCoords) ExpState.init with
  | none => none
  | some st =>
    some { Name := name, MaterialName := "", Vertices := st.Vertices,
           TextureCoords := st.TextureCoords, Normals := st.Normals,
           Indices := st.Indices }

deriving instance DecidableEq for Except

/-- The distinct error values of `loadMtl`, one per `fmt.Errorf` format
string in the source, each carrying the 1-based line number; `openFailed`
is a failure of the resolver (`dir.Open`). -/
inductive MtlError
  | openFailed
  | invalidTokens (line : ℕ)
  | invalidMaterialName (line : ℕ)
  | invalidKa (line : ℕ)
  | invalidKd (line : ℕ)
  | invalidKs (line : ℕ)
  | invalidNs (line : ℕ)
  | invalidNi (line : ℕ)
  | invalidD (line : ℕ)
  | invalidMapKa (line : ℕ)
  | invalidMapKd (line : ℕ)
  | invalidMapKs (line : ℕ)
  | invalidMapBump (line : ℕ)
  | invalidMapNs (line : ℕ)
  | invalidBump (line : ℕ)
  | invalidMapD (line : ℕ)
  | invalidIllum (line : ℕ)
  deriving DecidableEq, Repr

/-- The loop state of `loadMtl`: emitted materials, the material being
built, and the current line number. -/
structure MtlState where
  materials : List Material
  currentMtl : Material
  lineNumber : ℕ
  deriving DecidableEq, Repr

/-- Tokenize one input line the way both scanners do: trim surrounding
whitespace, then split on single spaces keeping empty pieces. -/
def tokensOf (line : String) : List (List Char) :=
  splitOnChar ' ' (goTrim line.data)

/-- The non-`newmtl` directive cases of `loadMtl`'s switch.  Each of
these touches only the material currently being built (and can fail);
the emitted-materials list and the rest of the state are untouched by
them, which this factoring makes explicit.  `ln` is the 1-based line
number used in errors. -/
def mtlField (ln : ℕ) (tok : List Char) (rest : List (List Char))
    (cur : Material) : Except MtlError Material :=
  if tok = "Ka".data then
    match rest with
    | a :: b :: c :: _ =>
      match parse3Float a b c with
      | none => .error (.invalidKa ln)
      | some v => .ok { cur with Ambient := v }
    | _ => .error (.invalidKa ln)
  else if tok = "Kd".data then
    match rest with
    | a :: b :: c :: _ =>
      match parse3Float a b c with
      | none => .error (.invalidKd ln)
      | some v => .ok { cur with Diffuse := v }
    | _ => .error (.invalidKd ln)
  else if tok = "Ks".data then
    match rest with
    | a :: b :: c :: _ =>
      match parse3Float a b c with
      | none => .error (.invalidKs ln)
      | some v => .ok { cur with Specular := v }
    | _ => .error (.invalidKs ln)
  else if tok = "Ns".data then
    match rest with
    | a :: _ =>
      match parseFloat a with
      | none => .error (.invalidNs ln)
      | some x => .ok { cur with Shininess := x }
    | _ => .error (.invalidNs ln)
  else if tok = "Ni".data then
    match rest with
    | a :: _ =>
      match parseFloat a with
      | none => .error (.invalidNi ln)
      | some x => .ok { cur with OpticalDensity := x }
    | _ => .error (.invalidNi ln)
  else if tok = "d".data then
    match rest with
    | a :: _ =>
      match parseFloat a with
      | none => .error (.invalidD ln)
      | some x => .ok { cur with Dissolve := x }
    | _ => .error (.invalidD ln)
  else if tok = "map_Ka".data then
    match rest with
    | a :: _ => .ok { cur with AmbientTexture := String.mk a }
    | _ => .error (.invalidMapKa ln)
  else if tok = "map_Kd".data then
    match rest with
    | a :: _ => .ok { cur with DiffuseTexture := String.mk a }
    | _ => .error (.invalidMapKd ln)
  else if tok = "map_Ks".data then
    match rest with
    | a :: _ => .ok { cur with SpecularTexture := String.mk a }
    | _ => .error (.invalidMapKs ln)
  else if tok = "map_Bump".data ∨ tok = "map_bump".data then
    match rest with
    | a :: _ => .ok { cur with NormalTexture := String.mk a }
    | _ => .error (.invalidMapBump ln)
  else if tok = "map_Ns".data ∨ tok = "map_ns".data ∨ tok = "map_NS".data then
    match rest with
    | a :: _ => .ok { cur with ShininessTexture := String.mk a }
    | _ => .error (.invalidMapNs ln)
  else if tok = "bump".data then
    match rest with
    | a :: _ => .ok { cur with NormalTexture := String.mk a }
    | _ => .error (.invalidBump ln)
  else if tok = "map_d".data then
    match rest with
    | a :: _ => .ok { cur with DissolveTexture := String.mk a }
    | _ => .error (.invalidMapD ln)
  else if tok = "illum".data then
    match rest with
    | a :: _ =>
      match parseUint8 a with
      | none => .error (.invalidIllum ln)
      | some x => .ok { cur with IlluminationModel := x }
    | _ => .error (.invalidIllum ln)
  else
    .ok cur

/-- One iteration of `loadMtl`'s scan loop over a single line. -/
def mtlStep (st : MtlState) (line : String) : Except MtlError MtlState :=
  match tokensOf line with
  | [] => .error (.invalidTokens (st.lineNumber + 1))
  | tok :: rest =>
    if tok = "newmtl".data then
      match rest with
      | [] => .error (.invalidMaterialName (st.lineNumber + 1))
      | nameCs :: _ =>
        if String.mk nameCs ≠ st.currentMtl.Name then
          if st.currentMtl ≠ mkMaterial "unnamed_mtl" then
            .ok { st with lineNumber := st.lineNumber + 1, materials := st.materials ++ [st.currentMtl], currentMtl := mkMaterial (String.mk nameCs) }
          else
            .ok { st with lineNumber := st.lineNumber + 1, currentMtl := mkMaterial (String.mk nameCs) }
        else .ok { st with lineNumber := st.lineNumber + 1 }
    else
      match mtlField (st.lineNumber + 1) tok rest st.currentMtl with
      | .error e => .error e
      | .ok cur => .ok { st with lineNumber := st.lineNumber + 1, currentMtl := cur }

/-- The scan loop of `loadMtl` over the remaining lines. -/
def mtlLoop : MtlState → List String → Except MtlError MtlState
  | st, [] => .ok st
  | st, l :: ls =>
    match mtlStep st l with
    | .error e => .error e
    | .ok st' => mtlLoop st' ls

/-- `loadMtl` of the source on an already-opened stream: scan all lines,
then append the currently-active material unconditionally. -/
def loadMtl (lines : List String) : Except MtlError (List Material) :=
  match mtlLoop ⟨[], mkMaterial "unnamed_mtl", 0⟩ lines with
  | .error e => .error e
  | .ok st => .ok (st.materials ++ [st.currentMtl])

/-- The distinct error values of `LoadObj`, one per `fmt.Errorf` format
string in the source; `failedMtlLoad` wraps the nested `loadMtl` error. -/
inductive ObjError
  | invalidTokens (line : ℕ)
  | invalidObjectName (line : ℕ)
  | invalidVertex (line : ℕ)
  | invalidNormal (line : ℕ)
  | invalidTexCoords (line : ℕ)
  | invalidFaceElem (line : ℕ)
  | unsupportedFaceElem (line : ℕ)
  | invalidMtlRef (line : ℕ)
  | failedMtlLoad (line : ℕ) (inner : MtlError)
  | invalidUsemtl (line : ℕ)
  deriving DecidableEq, Repr

/-- The loop state of `LoadObj`: emitted models and materials, the active
object and material names, the accumulated pools and faces, and the
current line number. -/
structure ScanState where
  models : List Model
  materials : List Material
  currentModel : String
  currentMaterial : String
  tmpVertices : List Vec3
  tmpNormals : List Vec3
  tmpTexCoords : List Vec3
  tmpFaceElems : List Face
  lineNumber : ℕ
  deriving DecidableEq, Repr

/-- The initial `LoadObj` state: default object name `unnamed_object`,
empty accumulators. -/
def ScanState.init : ScanState :=
  ⟨[], [], "unnamed_object", "", [], [], [], [], 0⟩

/-- Errors of one face-corner token: `strings.SplitN(tok, "/", 3)` not
yielding three pieces is the `unsupported` error, a failing integer parse
the `invalid` one. -/
inductive CornerErr
  | unsupported
  | invalid
  deriving DecidableEq, Repr

/-- Parse one face-corner token `v/vt/vn` into its 1-based index triple. -/
def parseCorner (cs : List Char) : Except CornerErr Triple :=
  match splitN3Slash cs with
  | [a, b, c] =>
    match parseInt64 a with
    | none => .error .invalid
    | some x =>
      match parseInt64 b with
      | none => .error .invalid
      | some y =>
        match parseInt64 c with
        | none => .error .invalid
        | some z => .ok (x, y, z)
  | _ => .error .unsupported

/-- Parse the face-corner tokens left to right; the first failing corner
determines the error, as in the source's loop. -/
def parseCorners : List (List Char) → Except CornerErr (List Triple)
  | [] => .ok []
  | c :: rest =>
    match parseCorner c with
    | .error e => .error e
    | .ok t =>
      match parseCorners rest with
      | .error e => .error e
      | .ok ts => .ok (t :: ts)

/-- One iteration of `LoadObj`'s scan loop over a single line.  `resolve`
abstracts `dir.Open` composed with the `mtllib` path resolution; the
outer `none` is a Go panic inside `exportModel`. -/
def objStep (resolve : String → Option (List String)) (st : ScanState)
    (line : String) : Option (Except ObjError ScanState) :=
  match tokensOf line with
  | [] => some (.error (.invalidTokens (st.lineNumber + 1)))
  | tok :: rest =>
    if tok = "o".data then
      match rest with
      | [] => some (.error (.invalidObjectName (st.lineNumber + 1)))
      | nameCs :: _ =>
        if String.mk nameCs ≠ st.currentModel ∧ st.tmpVertices ≠ [] then
          match exportModel st.currentModel st.tmpVertices st.tmpNormals
              st.tmpTexCoords st.tmpFaceElems with
          | none => none
          | some model =>
            some (.ok { st with lineNumber := st.lineNumber + 1, models := st.models ++ [{ model with MaterialName := st.currentMaterial }], currentModel := String.mk nameCs })
        else some (.ok { st with lineNumber := st.lineNumber + 1, currentModel := String.mk nameCs })
    else if tok = "v".data then
      match rest with
      | a :: b :: c :: _ =>
        match parse3Float a b c with
        | none => some (.error (.invalidVertex (st.lineNumber + 1)))
        | some t => some (.ok { st with lineNumber := st.lineNumber + 1, tmpVertices := st.tmpVertices ++ [t] })
      | _ => some (.error (.invalidVertex (st.lineNumber + 1)))
    else if tok = "vn".data then
      match rest with
      | a :: b :: c :: _ =>
        match parse3Float a b c with
        | none => some (.error (.invalidNormal (st.lineNumber + 1)))
        | some t => some (.ok { st with lineNumber := st.lineNumber + 1, tmpNormals := st.tmpNormals ++ [t] })
      | _ => some (.error (.invalidNormal (st.lineNumber + 1)))
    else if tok = "vt".data then
      match rest with
      | [] => some (.error (.invalidTexCoords (st.lineNumber + 1)))
      | uTok :: rest2 =>
        match parseFloat uTok with
        | none => some (.error (.invalidTexCoords (st.lineNumber + 1)))
        | some u =>
          match rest2 with
          | [] => some (.ok { st with lineNumber := st.lineNumber + 1, tmpTexCoords := st.tmpTexCoords ++ [(u, F32.zero, F32.zero)] })
          | vTok :: rest3 =>
            match parseFloat vTok with
            | none => some (.error (.invalidTexCoords (st.lineNumber + 1)))
            | some v =>
              match rest3 with
              | [] => some (.ok { st with lineNumber := st.lineNumber + 1, tmpTexCoords := st.tmpTexCoords ++ [(u, v, F32.zero)] })
              | wTok :: _ =>
                match parseFloat wTok with
                | none => some (.error (.invalidTexCoords (st.lineNumber + 1)))
                | some w =>
                  some (.ok { st with lineNumber := st.lineNumber + 1, tmpTexCoords := st.tmpTexCoords ++ [(u, v, w)] })
    else if tok = "f".data ∨ tok = "l".data then
      match rest with
      | [] => some (.error (.invalidFaceElem (st.lineNumber + 1)))
      | _ :: _ =>
        if rest.length = 3 then
          match parseCorners rest with
          | .error .unsupported => some (.error (.unsupportedFaceElem (st.lineNumber + 1)))
          | .error .invalid => some (.error (.invalidFaceElem (st.lineNumber + 1)))
          | .ok ts =>
            match ts with
            | [t1, t2, t3] =>
              some (.ok { st with lineNumber := st.lineNumber + 1, tmpFaceElems := st.tmpFaceElems ++ [(t1, t2, t3)] })
            | _ => some (.error (.invalidFaceElem (st.lineNumber + 1)))
        else some (.error (.unsupportedFaceElem (st.lineNumber + 1)))
    else if tok = "mtllib".data then
      match rest with
      | [] => some (.error (.invalidMtlRef (st.lineNumber + 1)))
      | mtlCs :: _ =>
        match resolve (String.mk mtlCs) with
        | none => some (.error (.failedMtlLoad (st.lineNumber + 1) .openFailed))
        | some mtlLines =>
          match loadMtl mtlLines with
          | .error e => some (.error (.failedMtlLoad (st.lineNumber + 1) e))
          | .ok mtls => some (.ok { st with lineNumber := st.lineNumber + 1, materials := st.materials ++ mtls })
    else if tok = "usemtl".data then
      match rest with
      | [] => some (.error (.invalidUsemtl (st.lineNumber + 1)))
      | mCs :: _ => some (.ok { st with lineNumber := st.lineNumber + 1, currentMaterial := String.mk mCs })
    else
      some (.ok { st with lineNumber := st.lineNumber + 1 })

/-- The scan loop of `LoadObj` over the remaining lines. -/
def objScanLoop (resolve : String → Option (List String)) :
    ScanState → List String → Option (Except ObjError ScanState)
  | st, [] => some (.ok st)
  | st, l :: ls =>
    match objStep resolve st l with
    | none => none
    | some (.error e) => some (.error e)
    | some (.ok st') => objScanLoop resolve st' ls

set_option linter.unusedVariables false in
/-- `LoadObj` of the source on an already-opened scene stream.  `lines`
are the lines the scanner yields; `ioErr` records whether the scan then
stopped due to a stream read failure instead of end-of-file — the source
never checks `s.Err()`, so the flag is not consulted.  After the loop the
active accumulator is always exported as the final model (its
`MaterialName` is left at the Go zero value `""`). -/
def LoadObj (resolve : String → Option (List String)) (lines : List String)
    (ioErr : Bool) : Option (Except ObjError (List Model × List Material)) :=
  match objScanLoop resolve ScanState.init lines with
  | none => none
  | some (.error e) => some (.error e)
  | some (.ok st) =>
    match exportModel st.currentModel st.tmpVertices st.tmpNormals
        st.tmpTexCoords st.tmpFaceElems with
    | none => none
    | some model => some (.ok (st.models ++ [model], st.materials))

/-- Insert a corner triple only if it has not been seen yet (one step of
building the first-occurrence list). -/
def addFirst (acc : List Triple) (c : Triple) : List Triple :=
  if c ∈ acc then acc else acc ++ [c]

/-- The distinct corner triples of a list, in first-occurrence order. -/
def firstOccs (cs : List Triple) : List Triple :=
  cs.foldl addFirst []

/-- The index of the first occurrence of a corner triple in a list
(`length` when absent). -/
def idxOfT (c : Triple) : List Triple → ℕ
  | [] => 0
  | x :: xs => if x = c then 0 else idxOfT c xs + 1

/-- Resolving a list of lookups, failing when any single lookup fails. -/
def mapOpt {α β : Type} (f : α → Option β) : List α → Option (List β)
  | [] => some []
  | x :: xs =>
    match f x with
    | none => none
    | some v =>
      match mapOpt f xs with
      | none => none
      | some vs => some (v :: vs)

/-- The position-pool lookup a corner performs (`verts[idx[0]-1]`). -/
def vLookup (verts : List Vec3) (c : Triple) : Option Vec3 :=
  sliceGet verts (i64wrap (c.1 - 1))

/-- The texcoord-pool lookup a corner performs (`texCoords[idx[1]-1]`). -/
def tLookup (texCoords : List Vec3) (c : Triple) : Option Vec3 :=
  sliceGet texCoords (i64wrap (c.2.1 - 1))

/-- The normal-pool lookup a corner performs (`normals[idx[2]-1]`). -/
def nLookup (normals : List Vec3) (c : Triple) : Option Vec3 :=
  sliceGet normals (i64wrap (c.2.2 - 1))

/-- The loop invariant of `exportModel`: after processing the corner list
`p` from the empty state, the deduplication map is exactly the
first-occurrence list with sequential (`uint32`-converted) positions, the
output pools are the resolved lookups of the first occurrences, and the
index list maps every processed corner to the position of its first
occurrence. -/
structure ExpInv (verts normals tex : List Vec3) (p : List Triple)
    (st : ExpState) : Prop where
  mapLen : st.indexMap.length = (firstOccs p).length
  mapLookup : ∀ c, lookupMap st.indexMap c =
    if c ∈ firstOccs p then some (u32 (idxOfT c (firstOccs p))) else none
  verts_eq : mapOpt (vLookup verts) (firstOccs p) = some st.Vertices
  normals_eq : mapOpt (nLookup normals) (firstOccs p) = some st.Normals
  tex_eq : mapOpt (tLookup tex) (firstOccs p) = some st.TextureCoords
  indices_eq : st.Indices = p.map (fun c => u32 (idxOfT c (firstOccs p)))

/-- A model that is the output of some `exportModel` run, possibly with
its `MaterialName` overwritten afterwards (as the `o` branch of `LoadObj`
does). -/
def IsExported (m : Model) : Prop :=
  ∃ (name mat : String) (verts normals tex : List Vec3) (faces : List Face)
    (m0 : Model),
    exportModel name verts normals tex faces = some m0 ∧
    m = { m0 with MaterialName := mat }

/-- The finalization algorithm as the spec words it, with no
deduplication map: resolve the pool lookups of the distinct corner
triples in first-occurrence order, and emit for every corner the
position of its first occurrence.  `exportModel` is proved to refine
this definition. -/
def exportModelSpec (name : String) (verts normals texCoords : List Vec3)
    (faces : List Face) : Option Model :=
  match mapOpt (vLookup verts) (firstOccs (cornersOf faces)),
      mapOpt (nLookup normals) (firstOccs (cornersOf faces)),
      mapOpt (tLookup texCoords) (firstOccs (cornersOf faces)) with
  | some vs, some ns, some ts =>
    some { Name := name, MaterialName := "", Vertices := vs,
           TextureCoords := ts, Normals := ns,
           Indices := (cornersOf faces).map
             (fun c => u32 (idxOfT c (firstOccs (cornersOf faces)))) }
  | _, _, _ => none

theorem foldl_addFirst_mem (cs : List Triple) :
    ∀ (acc : List Triple) (x : Triple),
      x ∈ cs.foldl addFirst acc ↔ x ∈ acc ∨ x ∈ cs := by
  induction cs with
  | nil => simp
  | cons c cs ih =>
    intro acc x
    simp only [List.foldl_cons]
    rw [ih]
    unfold addFirst
    by_cases hc : c ∈ acc
    · simp only [if_pos hc, List.mem_cons]
      constructor
      · rintro (h | h)
        · exact Or.inl h
        · exact Or.inr (Or.inr h)
      · rintro (h | h | h)
        · exact Or.inl h
        · exact Or.inl (h ▸ hc)
        · exact Or.inr h
    · simp only [if_neg hc, List.mem_append, List.mem_singleton, List.mem_cons]
      tauto

theorem mem_firstOccs (cs : List Triple) (x : Triple) :
    x ∈ firstOccs cs ↔ x ∈ cs := by
  simp [firstOccs, foldl_addFirst_mem]

theorem firstOccs_append_singleton (p : List Triple) (c : Triple) :
    firstOccs (p ++ [c]) = addFirst (firstOccs p) c := by
  simp [firstOccs, List.foldl_append]

theorem idxOfT_append_of_mem {c : Triple} {l1 : List Triple} (h : c ∈ l1)
    (l2 : List Triple) : idxOfT c (l1 ++ l2) = idxOfT c l1 := by
  induction l1 with
  | nil => cases h
  | cons x xs ih =>
    by_cases hx : x = c
    · simp [idxOfT, hx]
    · rcases List.mem_cons.1 h with h' | h'
      · exact absurd h'.symm hx
      · simp [idxOfT, hx, ih h']

theorem idxOfT_append_self (c : Triple) (l : List Triple) (h : c ∉ l) :
    idxOfT c (l ++ [c]) = l.length := by
  induction l with
  | nil => simp [idxOfT]
  | cons x xs ih =>
    have hx : x ≠ c := fun hxc => h (hxc ▸ List.mem_cons_self x xs)
    have h' : c ∉ xs := fun hc => h (List.mem_cons_of_mem x hc)
    simp [idxOfT, hx, ih h']

theorem idxOfT_lt_length {c : Triple} {l : List Triple} (h : c ∈ l) :
    idxOfT c l < l.length := by
  induction l with
  | nil => cases h
  | cons x xs ih =>
    by_cases hx : x = c
    · simp [idxOfT, hx]
    · rcases List.mem_cons.1 h with h' | h'
      · exact absurd h'.symm hx
      · simpa [idxOfT, hx] using ih h'

theorem mapOpt_length {α β : Type} (f : α → Option β) :
    ∀ (l : List α) (r : List β), mapOpt f l = some r → r.length = l.length := by
  intro l
  induction l with
  | nil => intro r h; simp [mapOpt] at h; simp [← h]
  | cons x xs ih =>
    intro r h
    simp only [mapOpt] at h
    cases hfx : f x with
    | none => rw [hfx] at h; cases h
    | some v =>
      rw [hfx] at h
      cases hxs : mapOpt f xs with
      | none => rw [hxs] at h; cases h
      | some vs =>
        rw [hxs] at h
        cases h
        simp [ih vs hxs]

theorem mapOpt_append_singleton {α β : Type} (f : α → Option β) (l : List α)
    (c : α) (vs : List β) (v : β) (hl : mapOpt f l = some vs) (hc : f c = some v) :
    mapOpt f (l ++ [c]) = some (vs ++ [v]) := by
  induction l generalizing vs with
  | nil =>
    simp only [mapOpt] at hl
    cases hl
    simp [mapOpt, hc]
  | cons x xs ih =>
    rw [List.cons_append]
    simp only [mapOpt] at hl ⊢
    cases hfx : f x with
    | none => rw [hfx] at hl; cases hl
    | some w =>
      rw [hfx] at hl
      cases hxs : mapOpt f xs with
      | none => rw [hxs] at hl; cases hl
      | some ws =>
        rw [hxs] at hl
        cases hl
        rw [ih ws hxs]
        rfl

theorem lookupMap_append (m1 : List (Triple × ℕ)) (c : Triple) (k : ℕ)
    (x : Triple) :
    lookupMap (m1 ++ [(c, k)]) x =
      match lookupMap m1 x with
      | some v => some v
      | none => if x = c then some k else none := by
  induction m1 with
  | nil =>
    simp only [List.nil_append, lookupMap]
    by_cases hx : c = x
    · subst hx; simp
    · have hx' : x ≠ c := fun h => hx h.symm
      simp [hx, hx']
  | cons p ps ih =>
    simp only [List.cons_append, lookupMap]
    by_cases hp : p.1 = x
    · simp [hp]
    · simp only [if_neg hp]
      exact ih

theorem expInv_init (verts normals tex : List Vec3) :
    ExpInv verts normals tex [] ExpState.init := by
  constructor <;> simp [firstOccs, ExpState.init, lookupMap, mapOpt]

theorem exportStep_inv {verts normals tex : List Vec3} {p : List Triple}
    {st st' : ExpState} {c : Triple}
    (h : ExpInv verts normals tex p st)
    (hs : exportStep verts normals tex st c = some st') :
    ExpInv verts normals tex (p ++ [c]) st' := by
  have hlk := h.mapLookup c
  by_cases hc : c ∈ firstOccs p
  · have hfo : firstOccs (p ++ [c]) = firstOccs p := by
      rw [firstOccs_append_singleton]; unfold addFirst; rw [if_pos hc]
    rw [if_pos hc] at hlk
    unfold exportStep at hs
    rw [hlk] at hs
    cases hs
    constructor
    · simpa [hfo] using h.mapLen
    · intro x; simpa [hfo] using h.mapLookup x
    · simpa [hfo] using h.verts_eq
    · simpa [hfo] using h.normals_eq
    · simpa [hfo] using h.tex_eq
    · rw [hfo, List.map_append, List.map_cons, List.map_nil, ← h.indices_eq]
  · have hfo : firstOccs (p ++ [c]) = firstOccs p ++ [c] := by
      rw [firstOccs_append_singleton]; unfold addFirst; rw [if_neg hc]
    rw [if_neg hc] at hlk
    unfold exportStep at hs
    rw [hlk] at hs
    cases hv : sliceGet verts (i64wrap (c.1 - 1)) with
    | none => rw [hv] at hs; cases hs
    | some v =>
      rw [hv] at hs
      cases hn : sliceGet normals (i64wrap (c.2.2 - 1)) with
      | none => rw [hn] at hs; cases hs
      | some n =>
        rw [hn] at hs
        cases ht : sliceGet tex (i64wrap (c.2.1 - 1)) with
        | none => rw [ht] at hs; cases hs
        | some t =>
          rw [ht] at hs
          cases hs
          have hlen := h.mapLen
          constructor
          · simp [hfo, hlen]
          · intro x
            simp only [hfo]
            rw [lookupMap_append]
            by_cases hx : x ∈ firstOccs p
            · rw [h.mapLookup x, if_pos hx,
                if_pos (List.mem_append_left [c] hx),
                idxOfT_append_of_mem hx]
            · rw [h.mapLookup x, if_neg hx]
              by_cases hxc : x = c
              · subst hxc
                rw [if_pos rfl,
                  if_pos (List.mem_append_right _ (List.mem_singleton_self x)),
                  idxOfT_append_self x _ hx, hlen]
              · rw [if_neg hxc, if_neg ?_]
                intro hmem
                rcases List.mem_append.1 hmem with h1 | h1
                · exact hx h1
                · exact hxc (List.mem_singleton.1 h1)
          · simp only [hfo]
            exact mapOpt_append_singleton _ _ _ _ _ h.verts_eq hv
          · simp only [hfo]
            exact mapOpt_append_singleton _ _ _ _ _ h.normals_eq hn
          · simp only [hfo]
            exact mapOpt_append_singleton _ _ _ _ _ h.tex_eq ht
          · simp only [hfo, List.map_append, List.map_cons, List.map_nil]
            have hcongr : p.map (fun x => u32 (idxOfT x (firstOccs p ++ [c]))) =
                p.map (fun x => u32 (idxOfT x (firstOccs p))) := by
              apply List.map_congr_left
              intro a ha
              rw [idxOfT_append_of_mem ((mem_firstOccs p a).2 ha)]
            rw [hcongr, ← h.indices_eq,
              idxOfT_append_self c _ hc, hlen]

theorem exportFold_inv {verts normals tex : List Vec3} :
    ∀ (cs p : List Triple) (st st' : ExpState),
      ExpInv verts normals tex p st →
      cs.foldlM (exportStep verts normals tex) st = some st' →
      ExpInv verts normals tex (p ++ cs) st' := by
  intro cs
  induction cs with
  | nil =>
    intro p st st' h hf
    simp only [List.foldlM_nil] at hf
    cases hf
    simpa using h
  | cons c cs ih =>
    intro p st st' h hf
    rw [List.foldlM_cons] at hf
    cases hstep : exportStep verts normals tex st c with
    | none => rw [hstep] at hf; cases hf
    | some st1 =>
      rw [hstep] at hf
      replace hf : List.foldlM (exportStep verts normals tex) st1 cs = some st' := hf
      have h1 := exportStep_inv h hstep
      have h2 := ih (p ++ [c]) st1 st' h1 hf
      simpa [List.append_assoc] using h2

/-- Full characterization of a successful `exportModel` run: the output
pools list the resolved lookups of the distinct corner triples in
first-occurrence order, and every corner's emitted index is the position
of its first occurrence. -/
theorem exportModel_spec {name : String} {verts normals tex : List Vec3}
    {faces : List Face} {m : Model}
    (h : exportModel name verts normals tex faces = some m) :
    m.Name = name ∧ m.MaterialName = "" ∧
    mapOpt (vLookup verts) (firstOccs (cornersOf faces)) = some m.Vertices ∧
    mapOpt (nLookup normals) (firstOccs (cornersOf faces)) = some m.Normals ∧
    mapOpt (tLookup tex) (firstOccs (cornersOf faces)) = some m.TextureCoords ∧
    m.Indices = (cornersOf faces).map
      (fun c => u32 (idxOfT c (firstOccs (cornersOf faces)))) := by
  unfold exportModel at h
  cases hf : (cornersOf faces).foldlM (exportStep verts normals tex) ExpState.init with
  | none => rw [hf] at h; cases h
  | some st =>
    rw [hf] at h
    cases h
    have hinv := exportFold_inv (cornersOf faces) [] ExpState.init st
      (expInv_init verts normals tex) hf
    rw [List.nil_append] at hinv
    exact ⟨rfl, rfl, hinv.verts_eq, hinv.normals_eq, hinv.tex_eq, hinv.indices_eq⟩

theorem exportModel_dims {name : String} {verts normals tex : List Vec3}
    {faces : List Face} {m : Model}
    (h : exportModel name verts normals tex faces = some m) :
    m.Vertices.length = (firstOccs (cornersOf faces)).length ∧
    m.Normals.length = (firstOccs (cornersOf faces)).length ∧
    m.TextureCoords.length = (firstOccs (cornersOf faces)).length ∧
    ∀ i ∈ m.Indices, i < (firstOccs (cornersOf faces)).length := by
  obtain ⟨-, -, hv, hn, ht, hi⟩ := exportModel_spec h
  refine ⟨mapOpt_length _ _ _ hv, mapOpt_length _ _ _ hn, mapOpt_length _ _ _ ht, ?_⟩
  intro i him
  rw [hi] at him
  rcases List.mem_map.1 him with ⟨c, hc, rfl⟩
  have hmem : c ∈ firstOccs (cornersOf faces) := (mem_firstOccs _ c).2 hc
  exact lt_of_le_of_lt (Nat.mod_le _ _) (idxOfT_lt_length hmem)

theorem objStep_models {resolve : String → Option (List String)}
    {st : ScanState} {line : String} {st' : ScanState}
    (hs : objStep resolve st line = some (.ok st')) :
    st'.models = st.models ∨
    ∃ m0 : Model,
      exportModel st.currentModel st.tmpVertices st.tmpNormals st.tmpTexCoords
        st.tmpFaceElems = some m0 ∧
      st'.models = st.models ++ [{ m0 with MaterialName := st.currentMaterial }] := by
  unfold objStep at hs
  repeat' split at hs
  all_goals cases hs
  all_goals simp_all

theorem objStep_lineNumber {resolve : String → Option (List String)}
    {st : ScanState} {line : String} {st' : ScanState}
    (hs : objStep resolve st line = some (.ok st')) :
    st'.lineNumber = st.lineNumber + 1 := by
  unfold objStep at hs
  repeat' split at hs
  all_goals cases hs
  all_goals simp

/-- C3 (amended): the scene parser's geometry accumulators are never
cleared or reset by any successfully processed line — in particular not
by an `o` directive — so each successor state's pools and face list
extend the previous ones, and a Model finalized later is built from all
faces seen since the start of the parse, not only those of its own
object. -/
theorem c3_accumulators_never_cleared {resolve : String → Option (List String)}
    {st : ScanState} {line : String} {st' : ScanState}
    (hs : objStep resolve st line = some (.ok st')) :
    (∃ l, st'.tmpVertices = st.tmpVertices ++ l) ∧
    (∃ l, st'.tmpNormals = st.tmpNormals ++ l) ∧
    (∃ l, st'.tmpTexCoords = st.tmpTexCoords ++ l) ∧
    (∃ l, st'.tmpFaceElems = st.tmpFaceElems ++ l) := by
  unfold objStep at hs
  repeat' split at hs
  all_goals cases hs
  all_goals refine ⟨?_, ?_, ?_, ?_⟩
  all_goals first
    | exact ⟨[], (List.append_nil _).symm⟩
    | exact ⟨_, rfl⟩

/-- C7 (amended): during scanning, the `newmtl` handler is the only
place a material is emitted, and it never emits the pristine
sentinel-default material (`Material{Name: "unnamed_mtl"}` with no field
ever set): any material appended by a scan step is the active material
and provably differs from the pristine default.  (The unconditional
end-of-stream emission is a separate code path; see the claim's
counterexample.) -/
theorem c7_newmtl_never_emits_pristine {st : MtlState} {line : String} {st' : MtlState}
    (hs : mtlStep st line = .ok st') :
    st'.materials = st.materials ∨
    (st'.materials = st.materials ++ [st.currentMtl] ∧
      st.currentMtl ≠ mkMaterial "unnamed_mtl") := by
  unfold mtlStep at hs
  repeat' split at hs
  all_goals cases hs
  all_goals simp_all

theorem objScanLoop_append (resolve : String → Option (List String))
    (st : ScanState) (l1 l2 : List String) :
    objScanLoop resolve st (l1 ++ l2) =
      match objScanLoop resolve st l1 with
      | none => none
      | some (.error e) => some (.error e)
      | some (.ok st1) => objScanLoop resolve st1 l2 := by
  induction l1 generalizing st with
  | nil => simp [objScanLoop]
  | cons l ls ih =>
    simp only [List.cons_append, objScanLoop]
    cases objStep resolve st l with
    | none => rfl
    | some r =>
      cases r with
      | error e => rfl
      | ok st1 => exact ih st1

theorem objScanLoop_lineNumber {resolve : String → Option (List String)} :
    ∀ (ls : List String) (st st' : ScanState),
      objScanLoop resolve st ls = some (.ok st') →
      st'.lineNumber = st.lineNumber + ls.length := by
  intro ls
  induction ls with
  | nil =>
    intro st st' h
    unfold objScanLoop at h
    cases h
    simp
  | cons l ls ih =>
    intro st st' h
    unfold objScanLoop at h
    cases hstep : objStep resolve st l with
    | none => rw [hstep] at h; cases h
    | some r =>
      rw [hstep] at h
      cases r with
      | error e => cases h
      | ok st1 =>
        have h1 := objStep_lineNumber hstep
        have h2 := ih st1 st' h
        rw [h2, h1, List.length_cons]
        omega

theorem objScanLoop_models {resolve : String → Option (List String)} :
    ∀ (ls : List String) (st st' : ScanState),
      objScanLoop resolve st ls = some (.ok st') →
      (∀ m ∈ st.models, IsExported m) →
      ∀ m ∈ st'.models, IsExported m := by
  intro ls
  induction ls with
  | nil =>
    intro st st' h hin
    unfold objScanLoop at h
    cases h
    exact hin
  | cons l ls ih =>
    intro st st' h hin
    unfold objScanLoop at h
    cases hstep : objStep resolve st l with
    | none => rw [hstep] at h; cases h
    | some r =>
      rw [hstep] at h
      cases r with
      | error e => cases h
      | ok st1 =>
        refine ih st1 st' h ?_
        rcases objStep_models hstep with hm | ⟨m0, hexp, hm⟩
        · rw [hm]; exact hin
        · rw [hm]
          intro m hmem
          rcases List.mem_append.1 hmem with h1 | h1
          · exact hin m h1
          · rcases List.mem_singleton.1 h1 with rfl
            exact ⟨st.currentModel, st.currentMaterial, st.tmpVertices, st.tmpNormals,
              st.tmpTexCoords, st.tmpFaceElems, m0, hexp, rfl⟩

/-- Every model in a successful `LoadObj` result is an `exportModel`
output (with its material name possibly overridden). -/
theorem LoadObj_models {resolve : String → Option (List String)}
    {lines : List String} {ioErr : Bool} {ms : List Model} {mats : List Material}
    (h : LoadObj resolve lines ioErr = some (.ok (ms, mats))) :
    ∀ m ∈ ms, IsExported m := by
  unfold LoadObj at h
  cases hl : objScanLoop resolve ScanState.init lines with
  | none => rw [hl] at h; cases h
  | some r =>
    rw [hl] at h
    cases r with
    | error e => cases h
    | ok st =>
      replace h : (match exportModel st.currentModel st.tmpVertices st.tmpNormals
          st.tmpTexCoords st.tmpFaceElems with
        | none => none
        | some model => some (Except.ok (st.models ++ [model], st.materials))) =
          some (Except.ok (ms, mats)) := h
      cases he : exportModel st.currentModel st.tmpVertices st.tmpNormals
          st.tmpTexCoords st.tmpFaceElems with
      | none => rw [he] at h; cases h
      | some model =>
        rw [he] at h
        cases h
        intro m hmem
        rcases List.mem_append.1 hmem with h1 | h1
        · exact objScanLoop_models lines ScanState.init st hl
            (by simp [ScanState.init]) m h1
        · rcases List.mem_singleton.1 h1 with rfl
          exact ⟨st.currentModel, m.MaterialName, st.tmpVertices, st.tmpNormals,
            st.tmpTexCoords, st.tmpFaceElems, m, he, rfl⟩

theorem objStep_face_bad_arity {resolve : String → Option (List String)}
    {st : ScanState} {line : String} {tok : List Char}
    {corners : List (List Char)}
    (htok : tokensOf line = tok :: corners)
    (hf : tok = "f".data ∨ tok = "l".data)
    (hn : corners.length ≠ 3) :
    objStep resolve st line =
      some (.error (if corners.length = 0 then ObjError.invalidFaceElem (st.lineNumber + 1)
        else ObjError.unsupportedFaceElem (st.lineNumber + 1))) := by
  have ho : ¬ (tok = "o".data) := by rcases hf with h | h <;> subst h <;> decide
  have hv : ¬ (tok = "v".data) := by rcases hf with h | h <;> subst h <;> decide
  have hvn : ¬ (tok = "vn".data) := by rcases hf with h | h <;> subst h <;> decide
  have hvt : ¬ (tok = "vt".data) := by rcases hf with h | h <;> subst h <;> decide
  cases corners with
  | nil => simp [objStep, htok, ho, hv, hvn, hvt, hf]
  | cons c cs =>
    have h3 : ¬ (cs.length = 2) := by
      intro h
      exact hn (by simp [h])
    simp [objStep, htok, ho, hv, hvn, hvt, hf, h3]

/-- C10: the deduplication map is used only for membership lookup and
insertion, so a successful `exportModel` run is fully determined by the
corner encounter order: it equals the map-free first-occurrence
specification `exportModelSpec`.  Together with the embedding being a
pure function of the scene lines and resolved material streams, the
parse outcome is deterministic. -/
theorem c10_export_refines_first_occurrence_spec {name : String}
    {verts normals tex : List Vec3} {faces : List Face} {m : Model}
    (h : exportModel name verts normals tex faces = some m) :
    exportModelSpec name verts normals tex faces = some m := by
  obtain ⟨hname, hmat, hv, hn, ht, hi⟩ := exportModel_spec h
  unfold exportModelSpec
  rw [hv, hn, ht, ← hname, ← hmat, ← hi]

/-- Witness for C10 at a concrete two-vertex, one-triangle input with a
repeated corner. -/
theorem c10_export_refines_witness :
    exportModel "m" [vec3zero, (dec 1 0, F32.zero, F32.zero)] [vec3zero] [vec3zero]
        [((1, 1, 1), (2, 1, 1), (1, 1, 1))] =
      some ⟨"m", "", [vec3zero, (dec 1 0, F32.zero, F32.zero)], [vec3zero, vec3zero],
        [vec3zero, vec3zero], [0, 1, 0]⟩ ∧
    exportModelSpec "m" [vec3zero, (dec 1 0, F32.zero, F32.zero)] [vec3zero] [vec3zero]
        [((1, 1, 1), (2, 1, 1), (1, 1, 1))] =
      some ⟨"m", "", [vec3zero, (dec 1 0, F32.zero, F32.zero)], [vec3zero, vec3zero],
        [vec3zero, vec3zero], [0, 1, 0]⟩ :=
  ⟨by decide, c10_export_refines_first_occurrence_spec (by decide)⟩

/-- C4: in every model of a successful parse the vertex, normal and
texture-coordinate sequences have equal length, and every emitted index
is strictly below the vertex count. -/
theorem c4_model_dimensions {resolve : String → Option (List String)}
    {lines : List String} {ioErr : Bool} {ms : List Model} {mats : List Material}
    (h : LoadObj resolve lines ioErr = some (.ok (ms, mats))) :
    ∀ m ∈ ms, m.Vertices.length = m.Normals.length ∧
      m.Vertices.length = m.TextureCoords.length ∧
      ∀ i ∈ m.Indices, i < m.Vertices.length := by
  intro m hm
  obtain ⟨nm, mat, verts, normals, tex, faces, m0, hexp, rfl⟩ := LoadObj_models h m hm
  obtain ⟨hv, hn, ht, hi⟩ := exportModel_dims hexp
  refine ⟨?_, ?_, ?_⟩
  · show m0.Vertices.length = m0.Normals.length
    rw [hv, hn]
  · show m0.Vertices.length = m0.TextureCoords.length
    rw [hv, ht]
  · intro i him
    show i < m0.Vertices.length
    rw [hv]
    exact hi i him

/-- Witness for C4 at a concrete two-triangle scene sharing an edge. -/
theorem c4_model_dimensions_witness :
    LoadObj (fun _ => none)
        ["v 0 0 0", "v 1 0 0", "v 0 1 0", "v 1 1 0", "vt 0", "vn 0 0 1",
         "f 1/1/1 2/1/1 3/1/1", "f 2/1/1 4/1/1 3/1/1"] false =
      some (.ok ([⟨"unnamed_object", "",
        [vec3zero, (dec 1 0, F32.zero, F32.zero), (F32.zero, dec 1 0, F32.zero),
          (dec 1 0, dec 1 0, F32.zero)],
        [vec3zero, vec3zero, vec3zero, vec3zero],
        [(F32.zero, F32.zero, dec 1 0), (F32.zero, F32.zero, dec 1 0),
          (F32.zero, F32.zero, dec 1 0), (F32.zero, F32.zero, dec 1 0)],
        [0, 1, 2, 1, 3, 2]⟩], [])) ∧
    (∀ m ∈ [(⟨"unnamed_object", "",
        [vec3zero, (dec 1 0, F32.zero, F32.zero), (F32.zero, dec 1 0, F32.zero),
          (dec 1 0, dec 1 0, F32.zero)],
        [vec3zero, vec3zero, vec3zero, vec3zero],
        [(F32.zero, F32.zero, dec 1 0), (F32.zero, F32.zero, dec 1 0),
          (F32.zero, F32.zero, dec 1 0), (F32.zero, F32.zero, dec 1 0)],
        [0, 1, 2, 1, 3, 2]⟩ : Model)],
      m.Vertices.length = m.Normals.length ∧
      m.Vertices.length = m.TextureCoords.length ∧
      ∀ i ∈ m.Indices, i < m.Vertices.length) :=
  ⟨by decide, @c4_model_dimensions (fun _ => none)
    ["v 0 0 0", "v 1 0 0", "v 0 1 0", "v 1 1 0", "vt 0", "vn 0 0 1",
     "f 1/1/1 2/1/1 3/1/1", "f 2/1/1 4/1/1 3/1/1"] false
    [⟨"unnamed_object", "",
      [vec3zero, (dec 1 0, F32.zero, F32.zero), (F32.zero, dec 1 0, F32.zero),
        (dec 1 0, dec 1 0, F32.zero)],
      [vec3zero, vec3zero, vec3zero, vec3zero],
      [(F32.zero, F32.zero, dec 1 0), (F32.zero, F32.zero, dec 1 0),
        (F32.zero, F32.zero, dec 1 0), (F32.zero, F32.zero, dec 1 0)],
      [0, 1, 2, 1, 3, 2]⟩] [] (by decide)⟩

theorem mapOpt_mem_some {α β : Type} (f : α → Option β) :
    ∀ (l : List α) (r : List β), mapOpt f l = some r →
      ∀ x ∈ l, ∃ v, f x = some v := by
  intro l
  induction l with
  | nil => intro r _ x hx; cases hx
  | cons a as ih =>
    intro r h x hx
    simp only [mapOpt] at h
    cases hfa : f a with
    | none => rw [hfa] at h; cases h
    | some v =>
      rw [hfa] at h
      cases has : mapOpt f as with
      | none => rw [has] at h; cases h
      | some vs =>
        rcases List.mem_cons.1 hx with rfl | hx'
        · exact ⟨v, hfa⟩
        · exact ih vs has x hx'

/-- Counterexample to C2 as stated: a face referencing empty pools makes
the parse call panic — the result is `none` (the model of the Go runtime
panic from the unchecked slice access), not `some (Except.error _)`; no
`IndexOutOfRange` error value exists anywhere in the error type, which
enumerates every `fmt.Errorf` site of the source. -/
theorem c2_counterexample :
    LoadObj (fun _ => none) ["f 1/1/1 2/2/2 3/3/3"] false = none := by decide

/-- C2 (amended): out-of-range pool lookups during model finalization
are not bounds-checked: any face corner whose position, texcoord or
normal lookup misses its pool makes `exportModel` — and hence the whole
parse call — panic via an unchecked slice access, rather than return an
explicit error. -/
theorem c2_out_of_range_panics {name : String} {verts normals tex : List Vec3}
    {faces : List Face} {c : Triple}
    (hc : c ∈ cornersOf faces)
    (hbad : vLookup verts c = none ∨ nLookup normals c = none ∨
      tLookup tex c = none) :
    exportModel name verts normals tex faces = none := by
  cases hm : exportModel name verts normals tex faces with
  | none => rfl
  | some m =>
    obtain ⟨-, -, hv, hn, ht, -⟩ := exportModel_spec hm
    have hcfo : c ∈ firstOccs (cornersOf faces) := (mem_firstOccs _ _).2 hc
    rcases hbad with hb | hb | hb
    · obtain ⟨v, hv2⟩ := mapOpt_mem_some _ _ _ hv c hcfo
      rw [hb] at hv2; cases hv2
    · obtain ⟨v, hv2⟩ := mapOpt_mem_some _ _ _ hn c hcfo
      rw [hb] at hv2; cases hv2
    · obtain ⟨v, hv2⟩ := mapOpt_mem_some _ _ _ ht c hcfo
      rw [hb] at hv2; cases hv2

/-- Witness for C2 (amended): the triple (1,1,1) referenced against
empty pools fails its position lookup, and the export panics. -/
theorem c2_out_of_range_witness :
    ((1, 1, 1) : Triple) ∈ cornersOf [((1, 1, 1), (2, 2, 2), (3, 3, 3))] ∧
    (vLookup [] ((1, 1, 1) : Triple) = none ∨
      nLookup [] ((1, 1, 1) : Triple) = none ∨
      tLookup [] ((1, 1, 1) : Triple) = none) ∧
    exportModel "unnamed_object" [] [] [] [((1, 1, 1), (2, 2, 2), (3, 3, 3))] = none :=
  ⟨by decide, Or.inl (by decide),
    @c2_out_of_range_panics "unnamed_object" [] [] []
      [((1, 1, 1), (2, 2, 2), (3, 3, 3))] (1, 1, 1) (by decide)
      (Or.inl (by decide))⟩

/-- Counterexample to C3 as stated: in a two-object scene with one
triangle per object, the second emitted Model carries six indices — the
first object's triangle is exported again — because the face accumulator
is not reset at the `o` directive.  The claim's reading (second model
holds only the faces of the second object) would give three indices. -/
theorem c3_counterexample :
    LoadObj (fun _ => none)
        ["o A", "v 0 0 0", "vt 0", "vn 0 0 1", "f 1/1/1 1/1/1 1/1/1",
         "o B", "f 1/1/1 1/1/1 1/1/1"] false =
      some (.ok ([⟨"A", "", [vec3zero], [vec3zero],
          [(F32.zero, F32.zero, dec 1 0)], [0, 0, 0]⟩,
        ⟨"B", "", [vec3zero], [vec3zero],
          [(F32.zero, F32.zero, dec 1 0)], [0, 0, 0, 0, 0, 0]⟩], [])) := by decide

/-- Witness for C3 (amended) at a concrete `o` directive processed from
a state with accumulated geometry: the pools and face list persist
unchanged into the successor state. -/
theorem c3_accumulators_witness :
    objStep (fun _ => none)
        ⟨[], [], "unnamed_object", "", [vec3zero], [vec3zero], [vec3zero],
          [((1, 1, 1), (1, 1, 1), (1, 1, 1))], 5⟩ "o B" =
      some (.ok ⟨[⟨"unnamed_object", "", [vec3zero], [vec3zero], [vec3zero], [0, 0, 0]⟩],
        [], "B", "", [vec3zero], [vec3zero], [vec3zero],
        [((1, 1, 1), (1, 1, 1), (1, 1, 1))], 6⟩) ∧
    ((∃ l, ([vec3zero] : List Vec3) = [vec3zero] ++ l) ∧
     (∃ l, ([vec3zero] : List Vec3) = [vec3zero] ++ l) ∧
     (∃ l, ([vec3zero] : List Vec3) = [vec3zero] ++ l) ∧
     (∃ l, ([((1, 1, 1), (1, 1, 1), (1, 1, 1))] : List Face) =
        [((1, 1, 1), (1, 1, 1), (1, 1, 1))] ++ l)) :=
  ⟨by decide, @c3_accumulators_never_cleared (fun _ => none)
    ⟨[], [], "unnamed_object", "", [vec3zero], [vec3zero], [vec3zero],
      [((1, 1, 1), (1, 1, 1), (1, 1, 1))], 5⟩ "o B"
    ⟨[⟨"unnamed_object", "", [vec3zero], [vec3zero], [vec3zero], [0, 0, 0]⟩],
      [], "B", "", [vec3zero], [vec3zero], [vec3zero],
      [((1, 1, 1), (1, 1, 1), (1, 1, 1))], 6⟩ (by decide)⟩

/-- Counterexample to C5 as stated: after `usemtl mat1`, the Model
emitted at end of stream has an empty `MaterialName` — the active
material name is not assigned to the final model. -/
theorem c5_counterexample :
    LoadObj (fun _ => none)
        ["usemtl mat1", "v 0 0 0", "vt 0", "vn 0 0 1", "f 1/1/1 1/1/1 1/1/1"] false =
      some (.ok ([⟨"unnamed_object", "", [vec3zero], [vec3zero],
        [(F32.zero, F32.zero, dec 1 0)], [0, 0, 0]⟩], [])) := by decide

/-- C5 (amended): the active material name is assigned only to Models
finalized at a subsequent `o` directive; the Model emitted at end of
stream always has the empty (Go zero value) `MaterialName`. -/
theorem c5_final_model_empty_material {resolve : String → Option (List String)}
    {lines : List String} {ioErr : Bool} {ms : List Model} {mats : List Material}
    (h : LoadObj resolve lines ioErr = some (.ok (ms, mats))) :
    ∃ m : Model, ms.getLast? = some m ∧ m.MaterialName = "" := by
  unfold LoadObj at h
  cases hl : objScanLoop resolve ScanState.init lines with
  | none => rw [hl] at h; cases h
  | some r =>
    rw [hl] at h
    cases r with
    | error e => cases h
    | ok st =>
      replace h : (match exportModel st.currentModel st.tmpVertices st.tmpNormals
          st.tmpTexCoords st.tmpFaceElems with
        | none => none
        | some model => some (Except.ok (st.models ++ [model], st.materials))) =
          some (Except.ok (ms, mats)) := h
      cases he : exportModel st.currentModel st.tmpVertices st.tmpNormals
          st.tmpTexCoords st.tmpFaceElems with
      | none => rw [he] at h; cases h
      | some model =>
        rw [he] at h
        cases h
        exact ⟨model, List.getLast?_concat _, (exportModel_spec he).2.1⟩

/-- Witness for C5 (amended) at the counterexample scene. -/
theorem c5_final_model_witness :
    LoadObj (fun _ => none)
        ["usemtl mat1", "v 0 0 0", "vt 0", "vn 0 0 1", "f 1/1/1 1/1/1 1/1/1"] false =
      some (.ok ([⟨"unnamed_object", "", [vec3zero], [vec3zero],
        [(F32.zero, F32.zero, dec 1 0)], [0, 0, 0]⟩], [])) ∧
    (∃ m : Model,
      ([(⟨"unnamed_object", "", [vec3zero], [vec3zero],
        [(F32.zero, F32.zero, dec 1 0)], [0, 0, 0]⟩ : Model)]).getLast? = some m ∧
      m.MaterialName = "") :=
  ⟨by decide, @c5_final_model_empty_material (fun _ => none)
    ["usemtl mat1", "v 0 0 0", "vt 0", "vn 0 0 1", "f 1/1/1 1/1/1 1/1/1"] false
    [⟨"unnamed_object", "", [vec3zero], [vec3zero],
      [(F32.zero, F32.zero, dec 1 0)], [0, 0, 0]⟩] [] (by decide)⟩

/-- C6: a stream read failure is invisible to the parser — `s.Err()` is
never checked — so a scan that stops due to a read failure (`true` flag)
still returns a successful, truncated result built from the lines read
before the failure, not an error. -/
theorem c6_read_failure_returns_success :
    LoadObj (fun _ => none) ["v 0 0 0"] true =
      some (.ok ([⟨"unnamed_object", "", [], [], [], []⟩], [])) := by decide

/-- Counterexample to C7 as stated: the empty MTL stream returns exactly
one Material, and it is the pristine sentinel default — the untouched
`Material{Name: "unnamed_mtl"}` is emitted by the unconditional
end-of-stream append. -/
theorem c7_counterexample :
    loadMtl [] = .ok [mkMaterial "unnamed_mtl"] := by decide

/-- Witness for C7 (amended) at a concrete `newmtl` step from a state
whose active material has a field set: the active material is emitted
and is not the pristine default. -/
theorem c7_newmtl_witness :
    mtlStep ⟨[], { mkMaterial "a" with Diffuse := (dec 1 1, dec 2 1, dec 3 1) }, 1⟩
        "newmtl b" =
      .ok ⟨[{ mkMaterial "a" with Diffuse := (dec 1 1, dec 2 1, dec 3 1) }],
        mkMaterial "b", 2⟩ ∧
    (([{ mkMaterial "a" with Diffuse := (dec 1 1, dec 2 1, dec 3 1) }] : List Material) = [] ∨
      (([{ mkMaterial "a" with Diffuse := (dec 1 1, dec 2 1, dec 3 1) }] : List Material) =
          [] ++ [{ mkMaterial "a" with Diffuse := (dec 1 1, dec 2 1, dec 3 1) }] ∧
        { mkMaterial "a" with Diffuse := (dec 1 1, dec 2 1, dec 3 1) } ≠
          mkMaterial "unnamed_mtl")) :=
  ⟨by decide, @c7_newmtl_never_emits_pristine
    ⟨[], { mkMaterial "a" with Diffuse := (dec 1 1, dec 2 1, dec 3 1) }, 1⟩
    "newmtl b"
    ⟨[{ mkMaterial "a" with Diffuse := (dec 1 1, dec 2 1, dec 3 1) }],
      mkMaterial "b", 2⟩ (by decide)⟩

/-- C8: the two-block MTL stream (`newmtl a` with `Kd 0.1 0.2 0.3`, then
`newmtl b` with `Ns 50`) yields exactly two materials in order: the
first with only Diffuse set to (0.1, 0.2, 0.3), the second with only
Shininess set to 50. -/
theorem c8_two_block_mtl :
    loadMtl ["newmtl a", "Kd 0.1 0.2 0.3", "newmtl b", "Ns 50"] =
      .ok [{ mkMaterial "a" with Diffuse := (dec 1 1, dec 2 1, dec 3 1) },
           { mkMaterial "b" with Shininess := dec 50 0 }] := by decide

/-- Counterexample to C9 as stated: the face line `f` with zero corner
tokens fails with the `invalid face/line element` error, not the
`unsupported face/line element` (face-arity) error the claim requires
for every corner count other than three. -/
theorem c9_counterexample :
    LoadObj (fun _ => none) ["f"] false =
        some (.error (.invalidFaceElem 1)) ∧
      ObjError.invalidFaceElem 1 ≠ ObjError.unsupportedFaceElem 1 := by decide

/-- C9 (amended): a face (or line) directive whose corner-token count is
not three makes the whole parse fail at that directive's 1-based line
number with no output: with at least one corner token the error is the
unsupported-face-arity error, with zero corner tokens it is the
malformed-directive (`invalid face/line element`) error. -/
theorem c9_face_arity_errors {resolve : String → Option (List String)}
    {pre post : List String} {line : String}
    {tok : List Char} {corners : List (List Char)} {st : ScanState} {ioErr : Bool}
    (hpre : objScanLoop resolve ScanState.init pre = some (.ok st))
    (htok : tokensOf line = tok :: corners)
    (hf : tok = "f".data ∨ tok = "l".data)
    (hn : corners.length ≠ 3) :
    LoadObj resolve (pre ++ line :: post) ioErr =
      some (.error (if corners.length = 0
        then ObjError.invalidFaceElem (pre.length + 1)
        else ObjError.unsupportedFaceElem (pre.length + 1))) := by
  have hln : st.lineNumber = pre.length := by
    have h2 := objScanLoop_lineNumber pre ScanState.init st hpre
    simpa [ScanState.init] using h2
  have hstep := @objStep_face_bad_arity resolve st line tok corners htok hf hn
  have hloop : objScanLoop resolve st (line :: post) =
      some (Except.error (if corners.length = 0
        then ObjError.invalidFaceElem (st.lineNumber + 1)
        else ObjError.unsupportedFaceElem (st.lineNumber + 1))) := by
    unfold objScanLoop
    rw [hstep]
  rw [hln] at hloop
  unfold LoadObj
  rw [objScanLoop_append, hpre]
  exact (by rw [hloop] :
    (match objScanLoop resolve st (line :: post) with
      | none => none
      | some (Except.error e) => some (Except.error e)
      | some (Except.ok st1) =>
        match exportModel st1.currentModel st1.tmpVertices st1.tmpNormals
            st1.tmpTexCoords st1.tmpFaceElems with
        | none => none
        | some model => some (Except.ok (st1.models ++ [model], st1.materials))) =
      some (Except.error (if corners.length = 0
        then ObjError.invalidFaceElem (pre.length + 1)
        else ObjError.unsupportedFaceElem (pre.length + 1))))

/-- Witness for C9 (amended) at a quad-free concrete input: a face line
with two corner tokens on line 1 fails with the unsupported-face-arity
error at line 1. -/
theorem c9_face_arity_witness :
    objScanLoop (fun _ => none) ScanState.init [] = some (.ok ScanState.init) ∧
    tokensOf "f 1/1/1 2/2/2" = "f".data :: ["1/1/1".data, "2/2/2".data] ∧
    ("f".data = "f".data ∨ "f".data = "l".data) ∧
    (["1/1/1".data, "2/2/2".data] : List (List Char)).length ≠ 3 ∧
    LoadObj (fun _ => none) ["f 1/1/1 2/2/2"] false =
      some (.error (ObjError.unsupportedFaceElem 1)) :=
  ⟨rfl, by decide, Or.inl rfl, by decide,
    @c9_face_arity_errors (fun _ => none) [] [] "f 1/1/1 2/2/2" ("f".data)
      ["1/1/1".data, "2/2/2".data] ScanState.init false rfl (by decide)
      (Or.inl rfl) (by decide)⟩
